/-
Verification of the ritadel analysis web UI (webui/src/pages/analysis.js and
the API client) against its natural-language specification.

JavaScript strings are embedded as Lean `String`s manipulated char-wise via
`String.toList` / `String.mk`; JS numbers appearing in arithmetic are embedded
as `ℚ` (sums, means, Math.random values) or `ℤ` (rounded results).
`Math.round x` is embedded as `⌊x + 1/2⌋`, which is JS rounding (half toward
+∞) for all finite inputs.  `Math.random()` is embedded as an explicit stream
`rng : ℕ → ℚ` of the values returned by successive calls.
-/
import Mathlib

namespace Ritadel

/-! ## Character classes

`\s` in the source's regexes is modelled by the common JS whitespace
characters (space, tab, LF, VT, FF, CR); exotic Unicode space code points are
not used by any input considered here. -/

/-- The characters matched by `\s` (JS whitespace), restricted to ASCII. -/
def isWhiteChar (c : Char) : Bool :=
  c = ' ' || c = '\t' || c = '\n' || c = '\x0b' || c = '\x0c' || c = '\r'

/-- The character class `[,\s]` from `input.split(/[,\s]+/)` in
`parseTickerInput` (analysis.js line 320). -/
def isSepChar (c : Char) : Bool :=
  c = ',' || isWhiteChar c

/-! ## JS string primitives -/

/-- Split a character list at every separator character, keeping empty chunks
(one chunk per maximal gap, as `String.prototype.split` on a character class
does up to empty chunks, which the caller filters away).  Returns the current
chunk and the list of later chunks. -/
def splitChunksAux (p : Char → Bool) : List Char → List Char × List (List Char)
  | [] => ([], [])
  | c :: cs =>
    let r := splitChunksAux p cs
    if p c then ([], r.1 :: r.2) else (c :: r.1, r.2)

/-- All chunks of `l` delimited by characters satisfying `p`. -/
def splitChunks (p : Char → Bool) (l : List Char) : List (List Char) :=
  (splitChunksAux p l).1 :: (splitChunksAux p l).2

/-- `String.prototype.trim()`: strip leading and trailing whitespace. -/
def jsTrim (s : String) : String :=
  String.mk (((s.toList.dropWhile isWhiteChar).reverse.dropWhile isWhiteChar).reverse)

/-- `String.prototype.toUpperCase()` on ASCII data. -/
def jsToUpper (s : String) : String :=
  String.mk (s.toList.map Char.toUpper)

/-- `String.prototype.toLowerCase()` on the data appearing here (ASCII letters
are lowered, CJK characters such as 买/卖 are untouched by both). -/
def jsToLower (s : String) : String :=
  String.mk (s.toList.map Char.toLower)

/-- `String.prototype.includes(sub)`: `sub` occurs contiguously in `s`. -/
def jsIncludes (s sub : List Char) : Bool :=
  match s with
  | [] => sub.isPrefixOf ([] : List Char)
  | c :: rest => sub.isPrefixOf (c :: rest) || jsIncludes rest sub

/-! ## parseTickerInput (analysis.js lines 319–321)

```js
const parseTickerInput = (input) => {
  return input.split(/[,\s]+/).filter(t => t.trim() !== '').map(t => t.trim().toUpperCase());
};
```

`split(/[,\s]+/)` splits on maximal runs of separators; splitting on single
separator characters instead yields extra empty chunks, all of which the
`filter` removes, so the two agree after the filter.  -/

/-- The ticker parser of the analysis page. -/
def parseTickerInput (input : String) : List String :=
  (((splitChunks isSepChar input.toList).map String.mk).filter
      (fun t => jsTrim t ≠ "")).map (fun t => jsToUpper (jsTrim t))

/-- First-seen-order deduplication, used to talk about the *distinct* tickers
of an input (the spec's notion); the source itself never deduplicates. -/
def dedupFirstAux (seen : List String) : List String → List String
  | [] => []
  | x :: xs =>
    if x ∈ seen then dedupFirstAux seen xs
    else x :: dedupFirstAux (x :: seen) xs

/-- Distinct elements of a list, first occurrence kept, order preserved. -/
def dedupFirst (l : List String) : List String :=
  dedupFirstAux [] l

/-! ## Input validation (analysis.js lines 441–459)

```js
const validateInputs = () => {
  if (!tickers.trim()) { setAnalysisError("请输入至少一个股票代码"); return false; }
  const currentTickerList = parseTickerInput(tickers);
  if (currentTickerList.length > 3) { setAnalysisError("请节省一点token消化，最多选择3个股票"); return false; }
  if (selectedAnalysts.length === 0) { setAnalysisError("请选择至少一个分析师"); return false; }
  return true;
};
```

`!tickers.trim()` is truthy exactly when the trimmed string is empty. -/

/-- An analyst option as held in `selectedAnalysts`: `value` is the agent id,
`label` the display name. -/
structure Analyst where
  value : String
  label : String
deriving DecidableEq

/-- The three rejection reasons of `validateInputs`, in check order. -/
inductive ValidationError where
  | emptyTickers
  | tooManyTickers
  | noAnalysts
deriving DecidableEq

/-- `validateInputs`: `none` means the inputs were accepted (`return true`),
`some e` the first failing check. -/
def validateInputs (tickers : String) (selectedAnalysts : List Analyst) :
    Option ValidationError :=
  if jsTrim tickers = "" then some .emptyTickers
  else if (parseTickerInput tickers).length > 3 then some .tooManyTickers
  else if selectedAnalysts.length = 0 then some .noAnalysts
  else none

/-! ## Result payloads and fallback construction (analysis.js lines 325–431)

Inside `handleStartAnalysis`, `ticker_list = tickers.split(',').map(t => t.trim())`
(split on commas only, no filtering, no upper-casing). -/

/-- `tickers.split(',').map(t => t.trim())`. -/
def splitCommaTrim (tickers : String) : List String :=
  ((splitChunks (fun c => c = ',') tickers.toList).map String.mk).map jsTrim

/-- `Math.round`: round half toward positive infinity. -/
def jsRound (q : ℚ) : ℤ := ⌊q + 1/2⌋

/-- One element of a `ticker_analyses` array: the per-analyst result object. -/
structure AnalysisEntry where
  agent_name : String
  signal : String
  confidence : ℤ
  reasoning : String
deriving DecidableEq

/-- A `ticker_analyses` object: ticker keys with their entry arrays. -/
abbrev TickerAnalyses := List (String × List AnalysisEntry)

/-- One per-analyst entry of the error-path fallback (`signals[ticker].analysts`). -/
structure ErrAnalystEntry where
  name : String
  signal : String
  confidence : ℤ
  reasoning : String
deriving DecidableEq

/-- One `signals[ticker]` object of the error-path fallback. -/
structure ErrTickerSignals where
  overallSignal : String
  confidence : ℤ
  analysts : List ErrAnalystEntry
deriving DecidableEq

/-- The two shapes `setAnalysisResults` receives: a `ticker_analyses`-shaped
object (backend data or the success-path fallback) or the error-path
`{signals: …}` shape. -/
inductive ResultsPayload where
  | tickerAnalyses (ta : TickerAnalyses)
  | errorSignals (signals : List (String × ErrTickerSignals))
deriving DecidableEq

/-- The success-path fallback entry for one analyst (lines 384–389):
```js
{ agent_name: analyst.value,
  signal: Math.random() > 0.5 ? '买入' : '卖出',
  confidence: Math.round(Math.random() * 40 + 60), // 60-100
  reasoning: `${analyst.label} 对 ${ticker} 的回退分析` }
```
`r1`, `r2` are the two `Math.random()` values consumed. -/
def mkRandomEntry (a : Analyst) (ticker : String) (r1 r2 : ℚ) : AnalysisEntry :=
  { agent_name := a.value
    signal := if r1 > 1/2 then "买入" else "卖出"
    confidence := jsRound (r2 * 40 + 60)
    reasoning := a.label ++ " 对 " ++ ticker ++ " 的回退分析" }

/-- One ticker's entry array in the success-path fallback
(`selectedAnalysts.map(analyst => ({…}))`, lines 384–389); `k` is the index of
the next unconsumed `Math.random()` call, two calls being consumed per
entry in order. -/
def fallbackRows (rng : ℕ → ℚ) (t : String) :
    ℕ → List Analyst → List AnalysisEntry
  | _, [] => []
  | k, a :: rest =>
    mkRandomEntry a t (rng k) (rng (k + 1)) :: fallbackRows rng t (k + 2) rest

/-- The `ticker_list.forEach` loop of the success-path fallback (lines
383–390), threading the `Math.random()` call counter across tickers. -/
def fallbackTickers (rng : ℕ → ℚ) (selectedAnalysts : List Analyst) :
    ℕ → List String → TickerAnalyses
  | _, [] => []
  | k, t :: rest =>
    (t, fallbackRows rng t k selectedAnalysts) ::
      fallbackTickers rng selectedAnalysts (k + 2 * selectedAnalysts.length) rest

/-- The success-path fallback data (lines 377–392), built when the response
parsed but had no `ticker_analyses` field.  `rng` is the stream of
`Math.random()` results in call order. -/
def fallbackData (tickers : String) (selectedAnalysts : List Analyst)
    (rng : ℕ → ℚ) : TickerAnalyses :=
  fallbackTickers rng selectedAnalysts 0 (splitCommaTrim tickers)

/-- The `.then` result handler (lines 365–396): backend data with a
`ticker_analyses` field is used directly; otherwise the random fallback is
synthesized.  `resp = none` models a response without `ticker_analyses`. -/
def successHandler (tickers : String) (selectedAnalysts : List Analyst)
    (resp : Option TickerAnalyses) (rng : ℕ → ℚ) : ResultsPayload :=
  match resp with
  | some ta => .tickerAnalyses ta
  | none => .tickerAnalyses (fallbackData tickers selectedAnalysts rng)

/-- The `signals` object built by the `.catch` fallback (lines 412–423):
every ticker gets `{overallSignal:'中性', confidence:50}` and one neutral
50-confidence entry per selected analyst. -/
def errorFallbackSignals (tickers : String) (selectedAnalysts : List Analyst) :
    List (String × ErrTickerSignals) :=
  (splitCommaTrim tickers).map (fun t =>
    (t, { overallSignal := "中性"
          confidence := 50
          analysts := selectedAnalysts.map (fun a =>
            { name := a.label
              signal := "中性"
              confidence := 50
              reasoning := "错误回退：" ++ a.label ++ " 对 " ++ t ++ " 的分析" }) }))

/-- The `.catch` fallback payload (lines 404–428). -/
def errorFallback (tickers : String) (selectedAnalysts : List Analyst) :
    ResultsPayload :=
  .errorSignals (errorFallbackSignals tickers selectedAnalysts)

/-- Whether a `ticker_analyses` object holds an entry for agent `name` under
ticker `t`. -/
def hasEntry (ta : TickerAnalyses) (t name : String) : Bool :=
  ta.any (fun p => p.1 = t && p.2.any (fun e => e.agent_name = name))

/-- Whether an error-shaped payload holds an entry named `name` under ticker
`t`. -/
def hasErrEntry (signals : List (String × ErrTickerSignals)) (t name : String) :
    Bool :=
  signals.any (fun p => p.1 = t && p.2.analysts.any (fun e => e.name = name))

/-! ## API-client post-processing, `runAnalysis` (api client, part_004 lines 67–91)

```js
if (response.data && response.data.ticker_analyses) {
  Object.keys(response.data.ticker_analyses).forEach(ticker => {
    const analysis = response.data.ticker_analyses[ticker];
    if (analysis.signals && Object.keys(analysis.signals).length === 1) {
      const analystSignal = Object.values(analysis.signals)[0];
      analysis.signals.overall = analystSignal;
    }
  });
}
```

A `signals` object is embedded as an association list in key order; JS
property assignment overwrites an existing key in place or appends a new
key at the end. -/

/-- A signal object as carried in a `signals` map and copied wholesale by
`runAnalysis`. -/
structure JsSignal where
  signal : String
  confidence : ℤ
  reasoning : String
deriving DecidableEq

/-- JS property write `m[k] = v` on an object embedded as an association
list. -/
def setKey (m : List (String × JsSignal)) (k : String) (v : JsSignal) :
    List (String × JsSignal) :=
  if m.any (fun p => p.1 = k) then
    m.map (fun p => if p.1 = k then (k, v) else p)
  else m ++ [(k, v)]

/-- JS property read `m[k]` on an object embedded as an association list. -/
def getKey (m : List (String × JsSignal)) (k : String) : Option JsSignal :=
  (m.find? (fun p => p.1 = k)).map (fun p => p.2)

/-- `runAnalysis`'s per-ticker step: when the `signals` object has exactly one
key, copy that key's value to `overall`. -/
def runAnalysisTicker (signals : List (String × JsSignal)) :
    List (String × JsSignal) :=
  match signals with
  | [entry] => setKey [entry] "overall" entry.2
  | _ => signals

/-- `runAnalysis`'s post-processing of the whole `ticker_analyses` object. -/
def runAnalysisPost (resp : List (String × List (String × JsSignal))) :
    List (String × List (String × JsSignal)) :=
  resp.map (fun p => (p.1, runAnalysisTicker p.2))

/-- Read one ticker's `signals` object out of a response. -/
def getTicker (resp : List (String × List (String × JsSignal)))
    (t : String) : Option (List (String × JsSignal)) :=
  (resp.find? (fun p => p.1 = t)).map (fun p => p.2)

/-! ## Signal classification, `getSignalInfo` (analysis.js lines 1416–1443)

```js
const getSignalInfo = (signal) => {
  const normalizedSignal = signal?.toLowerCase() || '';
  if (normalizedSignal.includes('买入') || normalizedSignal.includes('buy')) { … text: '买入' … }
  else if (normalizedSignal.includes('卖出') || normalizedSignal.includes('sell')) { … text: '卖出' … }
  else { … text: '中性' … }
};
```

Only the classification (`text`) carries behaviour; the colors/icons are
presentation.  `signal` may be `null`/`undefined`, embedded as `none`. -/

/-- `signal?.toLowerCase() || ''`. -/
def normalizedSignal (signal : Option String) : List Char :=
  match signal with
  | none => []
  | some s => (jsToLower s).toList

/-- The buy test of `getSignalInfo` on an already-normalized string. -/
def hasBuyMarker (norm : List Char) : Bool :=
  jsIncludes norm "买入".toList || jsIncludes norm "buy".toList

/-- The sell test of `getSignalInfo` on an already-normalized string. -/
def hasSellMarker (norm : List Char) : Bool :=
  jsIncludes norm "卖出".toList || jsIncludes norm "sell".toList

/-- The classification computed by `getSignalInfo` (its `text` field). -/
def getSignalText (signal : Option String) : String :=
  let norm := normalizedSignal signal
  if hasBuyMarker norm then "买入"
  else if hasSellMarker norm then "卖出"
  else "中性"

/-! ## Results summary statistics (analysis.js lines 1460–1466)

```js
avgConfidence: Math.round(analysisData.reduce((sum, item) => sum + item.confidence, 0) / analysisData.length || 0)
```

When `analysisData` is empty the quotient is `0/0 = NaN` and `NaN || 0`
evaluates to `0`; when the mean itself is `0`, `0 || 0` is also `0`, so the
`|| 0` is exactly an empty-list guard. -/

/-- `stats.avgConfidence` over the confidences of the parsed analysis rows. -/
def avgConfidence (confs : List ℚ) : ℤ :=
  if confs.length = 0 then 0
  else jsRound (confs.sum / confs.length)

/-! ## Progress writes (analysis.js lines 336–348)

```js
const ticker_list = tickers.split(',').map(t => t.trim());
const initialProgress = {};
selectedAnalysts.forEach(analyst => {
  initialProgress[analyst.value] = {};
  ticker_list.forEach(ticker => {
    initialProgress[analyst.value][ticker] = { status: '开始分析...', percent: 10 };
  });
});
setProgress(initialProgress);
```

This is the only place the run writes to the progress table.  The writes are
embedded as the ordered trace of `(analystValue, ticker, percent)` events. -/

/-- The ordered progress-write events a run performs. -/
def progressEvents (tickers : String) (selectedAnalysts : List Analyst) :
    List (String × String × ℕ) :=
  selectedAnalysts.flatMap (fun a =>
    (splitCommaTrim tickers).map (fun t => (a.value, t, 10)))

/-- The percent values written to one task key `(a, t)`, in write order. -/
def percentsFor (evs : List (String × String × ℕ)) (a t : String) : List ℕ :=
  (evs.filter (fun e => e.1 = a && e.2.1 = t)).map (fun e => e.2.2)

/-! ## Backend ResultAggregator, multi-analyst rule (spec §4.4)

The Python backend that computes a ticker's `overall` signal for multi-analyst
runs is not part of the available sources (only `backend/README.md` and
`requirements.txt` are present); the rule below is therefore modelled from the
specification text rather than translated from code. -/

/-- A signal direction. -/
inductive Direction where
  | buy
  | sell
  | neutral
deriving DecidableEq

/-- An analyst's signal as seen by the backend aggregator. -/
structure SpecSignal where
  dir : Direction
  confidence : ℚ
deriving DecidableEq

/-- Number of analysts voting direction `d`. -/
def countDir (sigs : List SpecSignal) (d : Direction) : ℕ :=
  (sigs.filter (fun x => x.dir = d)).length

/-- Modelled from the spec: "overall direction is the majority vote among
{Buy, Sell, Neutral} with ties broken in favor of `Neutral`" (§4.4, backend
ResultAggregator, source not under src/).  A direction wins only with a
strictly largest vote count; any tie falls to `Neutral`. -/
def majorityDirection (sigs : List SpecSignal) : Direction :=
  let b := countDir sigs .buy
  let s := countDir sigs .sell
  let n := countDir sigs .neutral
  if b > s ∧ b > n then .buy
  else if s > b ∧ s > n then .sell
  else .neutral

/-- Modelled from the spec: "overall confidence is the mean confidence of the
analysts that voted for the winning direction (not the mean of all analysts)"
(§4.4, backend ResultAggregator, source not under src/).  When no analyst
voted for the tie-broken `Neutral` winner the mean is vacuous and 0 is
returned. -/
def overallSignal (sigs : List SpecSignal) : SpecSignal :=
  let d := majorityDirection sigs
  let winners := sigs.filter (fun x => x.dir = d)
  { dir := d
    confidence :=
      if winners.length = 0 then 0
      else (winners.map (fun x => x.confidence)).sum / winners.length }

/-- A concrete three-analyst position set (Buy 80, Buy 60, Sell 90) used as a
test fixture. -/
def sigsBBS : List SpecSignal :=
  [⟨.buy, 80⟩, ⟨.buy, 60⟩, ⟨.sell, 90⟩]

/-! ## Supporting lemmas -/

/-- Upper-casing a nonempty string char-wise yields a nonempty string. -/
theorem jsToUpper_ne_empty {s : String} (h : s ≠ "") : jsToUpper s ≠ "" := by
  intro hu
  apply h
  have hlist : s.toList.map Char.toUpper = [] := by
    have := congrArg String.toList hu
    simpa [jsToUpper] using this
  have hnil : s.toList = [] := List.map_eq_nil_iff.mp hlist
  cases s with
  | mk data =>
    simp only [String.toList] at hnil
    simp [hnil]

/-- Every token produced by `parseTickerInput` is nonempty. -/
theorem mem_parseTickerInput_ne_empty {input x : String}
    (hx : x ∈ parseTickerInput input) : x ≠ "" := by
  unfold parseTickerInput at hx
  obtain ⟨t, ht, rfl⟩ := List.mem_map.mp hx
  have htf := (List.mem_filter.mp ht).2
  simp only [decide_eq_true_eq] at htf
  exact jsToUpper_ne_empty htf

/-- First-seen deduplication never lengthens a list. -/
theorem dedupFirstAux_length_le (l : List String) :
    ∀ seen, (dedupFirstAux seen l).length ≤ l.length := by
  induction l with
  | nil => intro seen; simp [dedupFirstAux]
  | cons x xs ih =>
    intro seen
    unfold dedupFirstAux
    by_cases hx : x ∈ seen
    · simp only [if_pos hx]
      exact Nat.le_succ_of_le (ih seen)
    · simp only [if_neg hx, List.length_cons]
      exact Nat.succ_le_succ (ih (x :: seen))

/-- First-seen deduplication never lengthens a list. -/
theorem dedupFirst_length_le (l : List String) :
    (dedupFirst l).length ≤ l.length :=
  dedupFirstAux_length_le l []

/-! ## Claim theorems -/

/-- Claim C2, counterexample: `parseTickerInput` keeps duplicates, so the
spec's example input produces `AAPL` twice rather than the claimed
deduplicated `["AAPL", "MSFT"]`. -/
theorem parseTickerInput_keeps_duplicates :
    parseTickerInput "AAPL, aapl , MSFT" = ["AAPL", "AAPL", "MSFT"] ∧
    parseTickerInput "AAPL, aapl , MSFT" ≠ ["AAPL", "MSFT"] := by
  decide

/-- Claim C2, amended: parsing splits on commas and/or whitespace, trims and
upper-cases each token and removes empty tokens, but performs no
deduplication: every produced token is nonempty, and parsing
`"AAPL, aapl , MSFT"` yields exactly `["AAPL", "AAPL", "MSFT"]`, duplicates
preserved in first-seen order. -/
theorem parseTickerInput_spec :
    (∀ input : String, "" ∉ parseTickerInput input) ∧
    parseTickerInput "AAPL, aapl , MSFT" = ["AAPL", "AAPL", "MSFT"] := by
  constructor
  · intro input hmem
    exact mem_parseTickerInput_ne_empty hmem rfl
  · decide

/-- Claim C2, witness for the amended theorem: an input with a stray empty
token between separators still produces no empty parsed token. -/
theorem parseTickerInput_spec_example :
    "" ∉ parseTickerInput "AAPL, ,MSFT" :=
  parseTickerInput_spec.1 "AAPL, ,MSFT"

/-- Claim C3, counterexample: an input with a single distinct ticker repeated
four times is rejected as `too many` even though at most 3 distinct tickers
remain, so acceptance is not determined by the distinct-ticker count. -/
theorem validateInputs_rejects_duplicates :
    validateInputs "AAPL, aapl, AAPL, AAPL" [⟨"warren_buffett_agent", "巴菲特"⟩]
        = some .tooManyTickers ∧
    dedupFirst (parseTickerInput "AAPL, aapl, AAPL, AAPL") = ["AAPL"] := by
  decide

/-- Claim C3, amended: the 3-ticker cap is checked on the parsed token list
with duplicates included: whenever the trimmed input is nonempty, the
`too many` rejection fires exactly when more than 3 tokens are parsed; more
than 3 distinct tickers always trigger it, but at most 3 distinct tickers do
not guarantee acceptance. -/
theorem validateInputs_token_cap (tickers : String) (analysts : List Analyst)
    (h : jsTrim tickers ≠ "") :
    (validateInputs tickers analysts = some .tooManyTickers ↔
      3 < (parseTickerInput tickers).length) ∧
    (3 < (dedupFirst (parseTickerInput tickers)).length →
      validateInputs tickers analysts = some .tooManyTickers) := by
  constructor
  · unfold validateInputs
    rw [if_neg h]
    by_cases h3 : 3 < (parseTickerInput tickers).length
    · simp [h3]
    · simp only [gt_iff_lt, if_neg h3]
      constructor
      · intro hcontra
        by_cases ha : analysts.length = 0 <;> simp [ha] at hcontra
      · intro hcontra; exact absurd hcontra h3
  · intro hd
    have hlen : 3 < (parseTickerInput tickers).length :=
      lt_of_lt_of_le hd (dedupFirst_length_le _)
    unfold validateInputs
    rw [if_neg h, if_pos (by exact hlen)]

/-- Claim C3, witness for the amended theorem at the input `"A B C D"` with no
analysts selected. -/
theorem validateInputs_token_cap_example :
    (validateInputs "A B C D" [] = some .tooManyTickers ↔
      3 < (parseTickerInput "A B C D").length) ∧
    (3 < (dedupFirst (parseTickerInput "A B C D")).length →
      validateInputs "A B C D" [] = some .tooManyTickers) :=
  validateInputs_token_cap "A B C D" [] (by decide)

/-- Claim C7, counterexample: the emptiness check is performed on the trimmed
raw string, not on the parsed ticker list, so the input `","` passes
validation even though its parsed ticker list is empty. -/
theorem validateInputs_accepts_empty_parse :
    validateInputs "," [⟨"warren_buffett_agent", "巴菲特"⟩] = none ∧
    parseTickerInput "," = [] := by
  decide

/-- Claim C7, amended: validation rejects a request exactly when the
whitespace-trimmed raw ticker string is empty, or more than 3 tickers are
parsed, or no analyst is selected; a raw string that is nonempty after
trimming but parses to no tickers (e.g. `","`) is accepted. -/
theorem validateInputs_characterization (tickers : String)
    (analysts : List Analyst) :
    validateInputs tickers analysts = none ↔
      (jsTrim tickers ≠ "" ∧ (parseTickerInput tickers).length ≤ 3 ∧
        analysts ≠ []) := by
  unfold validateInputs
  by_cases h1 : jsTrim tickers = ""
  · simp [h1]
  · by_cases h2 : 3 < (parseTickerInput tickers).length
    · simp [h1, h2, Nat.not_le_of_lt h2]
    · by_cases h3 : analysts.length = 0
      · simp [h1, h2, h3, List.length_eq_zero.mp h3]
      · have hne : analysts ≠ [] := fun he => h3 (by simp [he])
        simp [h1, h2, h3, Nat.le_of_not_lt h2, hne]

/-- Claim C7, witness for the amended theorem: the characterization at a
plain one-ticker input and one selected analyst. -/
theorem validateInputs_characterization_example :
    validateInputs "AAPL" [⟨"warren_buffett_agent", "巴菲特"⟩] = none ↔
      (jsTrim "AAPL" ≠ "" ∧ (parseTickerInput "AAPL").length ≤ 3 ∧
        ([⟨"warren_buffett_agent", "巴菲特"⟩] : List Analyst) ≠ []) :=
  validateInputs_characterization "AAPL" [⟨"warren_buffett_agent", "巴菲特"⟩]

/-- Post-processing commutes with ticker lookup. -/
theorem getTicker_runAnalysisPost
    (resp : List (String × List (String × JsSignal))) (t : String) :
    getTicker (runAnalysisPost resp) t =
      (getTicker resp t).map runAnalysisTicker := by
  induction resp with
  | nil => simp [getTicker, runAnalysisPost]
  | cons p rest ih =>
    by_cases hp : p.1 = t
    · simp [getTicker, runAnalysisPost, List.find?, hp]
    · simp only [getTicker, runAnalysisPost, List.map_cons, List.find?] at ih ⊢
      rw [show (decide (p.1 = t)) = false by simp [hp]]
      simpa [runAnalysisPost, getTicker] using ih

/-- Writing `overall` into a one-entry signals object makes `overall` readable
as the written value, whether or not the single key was itself `overall`. -/
theorem getKey_setKey_singleton (aid : String) (sig : JsSignal) :
    getKey (setKey [(aid, sig)] "overall" sig) "overall" = some sig := by
  by_cases h : aid = "overall"
  · simp [setKey, getKey, h, List.find?]
  · simp [setKey, getKey, h, List.find?]

/-- Claim C1: whenever a ticker's `signals` object in the response holds
exactly one analyst entry — as happens when exactly one analyst was selected
for the run — the API client's post-processing makes that ticker's `overall`
signal identically equal to the analyst's signal: the whole signal object
(direction, confidence and reasoning) is copied verbatim, not recomputed. -/
theorem runAnalysis_single_analyst_pass_through
    (resp : List (String × List (String × JsSignal))) (t aid : String)
    (sig : JsSignal) (h : getTicker resp t = some [(aid, sig)]) :
    ∃ m, getTicker (runAnalysisPost resp) t = some m ∧
      getKey m "overall" = some sig := by
  refine ⟨runAnalysisTicker [(aid, sig)], ?_, ?_⟩
  · rw [getTicker_runAnalysisPost, h]; rfl
  · show getKey (runAnalysisTicker [(aid, sig)]) "overall" = some sig
    unfold runAnalysisTicker
    exact getKey_setKey_singleton aid sig

/-- Claim C1, witness: a one-analyst response for `AAPL` whose signal is
`买入` at confidence 80 gets an identical `overall` entry. -/
theorem runAnalysis_single_analyst_example :
    ∃ m, getTicker
        (runAnalysisPost
          [("AAPL", [("warren_buffett_agent",
            ⟨"买入", 80, "moat"⟩)])]) "AAPL" = some m ∧
      getKey m "overall" = some ⟨"买入", 80, "moat"⟩ :=
  runAnalysis_single_analyst_pass_through
    [("AAPL", [("warren_buffett_agent", ⟨"买入", 80, "moat"⟩)])]
    "AAPL" "warren_buffett_agent" ⟨"买入", 80, "moat"⟩ (by decide)

/-- Each analyst in the list gets an entry in a fallback row block. -/
theorem any_fallbackRows_agent (rng : ℕ → ℚ) (t : String) (a : Analyst) :
    ∀ (analysts : List Analyst) (k : ℕ), a ∈ analysts →
    (fallbackRows rng t k analysts).any (fun e => e.agent_name = a.value)
      = true := by
  intro analysts
  induction analysts with
  | nil => intro k ha; cases ha
  | cons b rest ih =>
    intro k ha
    rcases List.mem_cons.mp ha with hb | hrest
    · subst hb
      simp [fallbackRows, mkRandomEntry]
    · simp only [fallbackRows, List.any_cons, Bool.or_eq_true]
      exact Or.inr (ih (k + 2) hrest)

/-- Every requested ticker × analyst pair is present in the success-path
fallback, whatever the random stream. -/
theorem hasEntry_fallbackTickers (rng : ℕ → ℚ) (analysts : List Analyst)
    (a : Analyst) (ha : a ∈ analysts) :
    ∀ (ts : List String) (k : ℕ) (t : String), t ∈ ts →
    hasEntry (fallbackTickers rng analysts k ts) t a.value = true := by
  intro ts
  induction ts with
  | nil => intro k t ht; cases ht
  | cons u rest ih =>
    intro k t ht
    rcases List.mem_cons.mp ht with hu | hrest
    · subst hu
      simp only [fallbackTickers, hasEntry, List.any_cons, Bool.or_eq_true]
      exact Or.inl (by simp [any_fallbackRows_agent rng t a analysts k ha])
    · simp only [fallbackTickers, hasEntry, List.any_cons, Bool.or_eq_true]
      exact Or.inr (ih (k + 2 * analysts.length) t hrest)

/-- Claim C4, counterexample: a validated one-ticker, one-analyst run whose
backend response carries a `ticker_analyses` object that is missing the
requested pair is passed through unchanged, so the final result payload has no
entry for the requested (ticker, analyst) pair and no backfill happens. -/
theorem successHandler_passes_incomplete_response :
    validateInputs "AAPL" [⟨"warren_buffett_agent", "巴菲特"⟩] = none ∧
    successHandler "AAPL" [⟨"warren_buffett_agent", "巴菲特"⟩] (some [])
        (fun _ => 0) = .tickerAnalyses [] ∧
    hasEntry [] "AAPL" "warren_buffett_agent" = false :=
  ⟨by decide, rfl, by decide⟩

/-- Claim C4, amended: the complete-shape backfill covers the two fallback
paths only — when the backend response lacks a `ticker_analyses` field and
when the request fails, every requested (ticker, analyst) pair receives an
entry; a backend response that does carry `ticker_analyses` is used verbatim,
without a completeness check. -/
theorem fallback_paths_complete (tickers : String) (analysts : List Analyst)
    (rng : ℕ → ℚ) (t : String) (a : Analyst)
    (ht : t ∈ splitCommaTrim tickers) (ha : a ∈ analysts) :
    hasEntry (fallbackData tickers analysts rng) t a.value = true ∧
    hasErrEntry (errorFallbackSignals tickers analysts) t a.label = true := by
  constructor
  · exact hasEntry_fallbackTickers rng analysts a ha (splitCommaTrim tickers) 0 t ht
  · simp only [hasErrEntry, errorFallbackSignals, List.any_eq_true]
    refine ⟨_, List.mem_map_of_mem _ ht, ?_⟩
    simp only [Bool.and_eq_true, decide_eq_true_eq]
    refine ⟨trivial, ?_⟩
    simp only [List.any_eq_true]
    exact ⟨_, List.mem_map_of_mem _ ha, by simp⟩

/-- Claim C4, witness for the amended theorem: a two-ticker, two-analyst run;
the pair (`MSFT`, second analyst) is present in both fallback shapes. -/
theorem fallback_paths_complete_example :
    hasEntry
        (fallbackData "AAPL,MSFT" [⟨"wb", "巴菲特"⟩, ⟨"cm", "芒格"⟩]
          (fun _ => 0)) "MSFT" "cm" = true ∧
    hasErrEntry
        (errorFallbackSignals "AAPL,MSFT" [⟨"wb", "巴菲特"⟩, ⟨"cm", "芒格"⟩])
        "MSFT" "芒格" = true :=
  fallback_paths_complete "AAPL,MSFT" [⟨"wb", "巴菲特"⟩, ⟨"cm", "芒格"⟩]
    (fun _ => 0) "MSFT" ⟨"cm", "芒格"⟩ (by decide) (by decide)

/-- Observation of a `ticker_analyses` object down to the fields the fallback
randomizes: agent, signal direction and confidence. -/
def observeTA (ta : TickerAnalyses) : List (String × List (String × String × ℤ)) :=
  ta.map (fun p => (p.1, p.2.map (fun e => (e.agent_name, e.signal, e.confidence))))

/-- Claim C5, counterexample: the success-path fallback (taken when the
response has no `ticker_analyses`) is neither neutral nor deterministic — with
`Math.random()` returning 3/4 it synthesizes a `买入` signal at confidence 90,
with 1/4 a `卖出` signal at confidence 70, and the two result sets differ. -/
theorem fallbackData_random_not_neutral :
    observeTA (fallbackData "AAPL" [⟨"wb", "巴菲特"⟩] (fun _ => 3/4)) =
      [("AAPL", [("wb", "买入", (90 : ℤ))])] ∧
    observeTA (fallbackData "AAPL" [⟨"wb", "巴菲特"⟩] (fun _ => 1/4)) =
      [("AAPL", [("wb", "卖出", (70 : ℤ))])] ∧
    fallbackData "AAPL" [⟨"wb", "巴菲特"⟩] (fun _ => 3/4) ≠
      fallbackData "AAPL" [⟨"wb", "巴菲特"⟩] (fun _ => 1/4) := by
  have hsplit : splitCommaTrim "AAPL" = ["AAPL"] := by decide
  have h1 : observeTA (fallbackData "AAPL" [⟨"wb", "巴菲特"⟩] (fun _ => 3/4)) =
      [("AAPL", [("wb", "买入", (90 : ℤ))])] := by
    unfold fallbackData
    rw [hsplit]
    simp only [fallbackTickers, fallbackRows, mkRandomEntry, observeTA,
      List.map_cons, List.map_nil]
    norm_num [jsRound, Int.floor_eq_iff]
  have h2 : observeTA (fallbackData "AAPL" [⟨"wb", "巴菲特"⟩] (fun _ => 1/4)) =
      [("AAPL", [("wb", "卖出", (70 : ℤ))])] := by
    unfold fallbackData
    rw [hsplit]
    simp only [fallbackTickers, fallbackRows, mkRandomEntry, observeTA,
      List.map_cons, List.map_nil]
    norm_num [jsRound, Int.floor_eq_iff]
  refine ⟨h1, h2, fun heq => ?_⟩
  have hobs := congrArg observeTA heq
  rw [h1, h2] at hobs
  simp at hobs

/-- Claim C5, amended: only the request-error fallback is deterministic and
neutral — it is a pure function of the tickers and analysts, and every ticker
it produces carries `overallSignal` `中性` at confidence 50 with one `中性`,
confidence-50 entry per analyst; the missing-`ticker_analyses` fallback
instead draws random `买入`/`卖出` signals with confidence in [60, 100]. -/
theorem errorFallback_deterministic_neutral (tickers : String)
    (analysts : List Analyst) (p : String × ErrTickerSignals)
    (hp : p ∈ errorFallbackSignals tickers analysts) :
    p.2.overallSignal = "中性" ∧ p.2.confidence = 50 ∧
    ∀ e ∈ p.2.analysts, e.signal = "中性" ∧ e.confidence = 50 := by
  obtain ⟨t, ht, rfl⟩ := List.mem_map.mp hp
  refine ⟨rfl, rfl, ?_⟩
  intro e he
  obtain ⟨a, ha, rfl⟩ := List.mem_map.mp he
  exact ⟨rfl, rfl⟩

/-- Claim C5, witness for the amended theorem: concrete error-path fallback
for one ticker and one analyst. -/
theorem errorFallback_deterministic_neutral_example :
    ("AAPL",
      ({ overallSignal := "中性", confidence := 50,
         analysts := [{ name := "巴菲特", signal := "中性", confidence := 50,
                        reasoning := "错误回退：巴菲特 对 AAPL 的分析" }] } :
        ErrTickerSignals)).2.overallSignal = "中性" ∧
    ("AAPL",
      ({ overallSignal := "中性", confidence := 50,
         analysts := [{ name := "巴菲特", signal := "中性", confidence := 50,
                        reasoning := "错误回退：巴菲特 对 AAPL 的分析" }] } :
        ErrTickerSignals)).2.confidence = 50 ∧
    ∀ e ∈ ("AAPL",
      ({ overallSignal := "中性", confidence := 50,
         analysts := [{ name := "巴菲特", signal := "中性", confidence := 50,
                        reasoning := "错误回退：巴菲特 对 AAPL 的分析" }] } :
        ErrTickerSignals)).2.analysts, e.signal = "中性" ∧ e.confidence = 50 :=
  errorFallback_deterministic_neutral "AAPL" [⟨"wb", "巴菲特"⟩] _ (by decide)

/-- Claim C6 (aggregation rule modelled from the spec; the backend source is
not under src/): for a run with more than one analyst, the overall direction
is the strict majority among Buy/Sell/Neutral with every tie falling to
Neutral, and the overall confidence times the number of winning-direction
analysts equals the sum of exactly those analysts' confidences — i.e. it is
their mean, not the mean over all analysts. -/
theorem overallSignal_majority_mean (sigs : List SpecSignal)
    (h : 1 < sigs.length) :
    ((countDir sigs .sell < countDir sigs .buy ∧
      countDir sigs .neutral < countDir sigs .buy) →
        (overallSignal sigs).dir = .buy) ∧
    ((countDir sigs .buy < countDir sigs .sell ∧
      countDir sigs .neutral < countDir sigs .sell) →
        (overallSignal sigs).dir = .sell) ∧
    ((¬(countDir sigs .sell < countDir sigs .buy ∧
        countDir sigs .neutral < countDir sigs .buy) ∧
      ¬(countDir sigs .buy < countDir sigs .sell ∧
        countDir sigs .neutral < countDir sigs .sell)) →
        (overallSignal sigs).dir = .neutral) ∧
    ((sigs.filter (fun x => x.dir = (overallSignal sigs).dir)) ≠ [] →
      (overallSignal sigs).confidence *
          ((sigs.filter (fun x => x.dir = (overallSignal sigs).dir)).length) =
        ((sigs.filter (fun x => x.dir = (overallSignal sigs).dir)).map
          (fun x => x.confidence)).sum) := by
  have hdir : (overallSignal sigs).dir = majorityDirection sigs := rfl
  refine ⟨?_, ?_, ?_, ?_⟩
  · intro hb
    rw [hdir]
    unfold majorityDirection
    rw [if_pos hb]
  · intro hs
    rw [hdir]
    unfold majorityDirection
    have hnb : ¬(countDir sigs .sell < countDir sigs .buy ∧
        countDir sigs .neutral < countDir sigs .buy) := by
      intro hb; exact absurd hs.1 (Nat.not_lt_of_lt hb.1)
    rw [if_neg hnb, if_pos hs]
  · intro ⟨hnb, hns⟩
    rw [hdir]
    unfold majorityDirection
    rw [if_neg hnb, if_neg hns]
  · intro hw
    have hconf : (overallSignal sigs).confidence =
        if (sigs.filter (fun x => x.dir = (overallSignal sigs).dir)).length = 0
        then 0
        else ((sigs.filter (fun x => x.dir = (overallSignal sigs).dir)).map
            (fun x => x.confidence)).sum /
          ((sigs.filter (fun x => x.dir = (overallSignal sigs).dir)).length) :=
      rfl
    have hlen : (sigs.filter (fun x => x.dir = (overallSignal sigs).dir)).length ≠ 0 := by
      simpa [List.length_eq_zero] using hw
    rw [hconf, if_neg hlen]
    have hq : ((sigs.filter (fun x => x.dir = (overallSignal sigs).dir)).length : ℚ) ≠ 0 :=
      Nat.cast_ne_zero.mpr hlen
    field_simp

/-- Claim C6, witness: three analysts, Buy at 80 and 60 confidence against
Sell at 90; the modelled aggregate picks Buy and averages only the two Buy
confidences. -/
theorem overallSignal_majority_mean_example :
    ((countDir sigsBBS .sell < countDir sigsBBS .buy ∧
      countDir sigsBBS .neutral < countDir sigsBBS .buy) →
        (overallSignal sigsBBS).dir = .buy) ∧
    ((countDir sigsBBS .buy < countDir sigsBBS .sell ∧
      countDir sigsBBS .neutral < countDir sigsBBS .sell) →
        (overallSignal sigsBBS).dir = .sell) ∧
    ((¬(countDir sigsBBS .sell < countDir sigsBBS .buy ∧
        countDir sigsBBS .neutral < countDir sigsBBS .buy) ∧
      ¬(countDir sigsBBS .buy < countDir sigsBBS .sell ∧
        countDir sigsBBS .neutral < countDir sigsBBS .sell)) →
        (overallSignal sigsBBS).dir = .neutral) ∧
    ((sigsBBS.filter (fun x => x.dir = (overallSignal sigsBBS).dir)) ≠ [] →
      (overallSignal sigsBBS).confidence *
          ((sigsBBS.filter (fun x => x.dir = (overallSignal sigsBBS).dir)).length) =
        ((sigsBBS.filter (fun x => x.dir = (overallSignal sigsBBS).dir)).map
          (fun x => x.confidence)).sum) :=
  overallSignal_majority_mean sigsBBS (by decide)

/-- A list whose elements are all 10 is nondecreasing. -/
theorem chainLe_of_all_ten :
    ∀ (l : List ℕ), (∀ x ∈ l, x = 10) → l.Chain' (· ≤ ·)
  | [], _ => List.chain'_nil
  | [_], _ => List.chain'_singleton _
  | x :: y :: ys, h => by
    rw [List.chain'_cons]
    refine ⟨?_, chainLe_of_all_ten (y :: ys) ?_⟩
    · rw [h x (by simp), h y (by simp)]
    · intro z hz
      exact h z (by simp [hz])

/-- Claim C8: the percent values a run writes for a single (analyst, ticker)
task key form a nondecreasing sequence — the only writes performed are the
batch initializing every key to 10, so per-key progress never decreases,
while nothing relates writes of distinct keys. -/
theorem progress_percent_monotone (tickers : String)
    (analysts : List Analyst) (a t : String) :
    (percentsFor (progressEvents tickers analysts) a t).Chain' (· ≤ ·) := by
  apply chainLe_of_all_ten
  intro x hx
  simp only [percentsFor, List.mem_map] at hx
  obtain ⟨e, he, rfl⟩ := hx
  have he' := List.mem_of_mem_filter he
  simp only [progressEvents, List.mem_flatMap, List.mem_map] at he'
  obtain ⟨a', -, t', -, rfl⟩ := he'
  rfl

/-- Claim C9: the summary's average confidence is total — on an empty parsed
analysis list it is 0 (the `|| 0` guard absorbs the `NaN`), and on a nonempty
list it is within one half of the exact arithmetic mean of all entries'
confidences, i.e. the mean rounded to an integer. -/
theorem avgConfidence_total (confs : List ℚ) :
    (confs = [] → avgConfidence confs = 0) ∧
    (confs ≠ [] →
      |(avgConfidence confs : ℚ) - confs.sum / confs.length| ≤ 1/2) := by
  constructor
  · intro h
    subst h
    rfl
  · intro h
    have hlen : confs.length ≠ 0 := by
      simpa [List.length_eq_zero] using h
    unfold avgConfidence
    rw [if_neg hlen]
    unfold jsRound
    have h1 : ((⌊confs.sum / (confs.length : ℚ) + 1/2⌋ : ℤ) : ℚ) ≤
        confs.sum / (confs.length : ℚ) + 1/2 := Int.floor_le _
    have h2 : confs.sum / (confs.length : ℚ) + 1/2 <
        (⌊confs.sum / (confs.length : ℚ) + 1/2⌋ : ℤ) + 1 :=
      Int.lt_floor_add_one _
    rw [abs_le]
    constructor <;> linarith

/-- Claim C9, witness: the empty list yields 0, and for confidences 50 and 61
the rounded value 56 is within one half of the exact mean 55.5. -/
theorem avgConfidence_total_example :
    avgConfidence [] = 0 ∧
    |(avgConfidence [50, 61] : ℚ) -
      ([(50 : ℚ), 61].sum / ([(50 : ℚ), 61].length : ℚ))| ≤ 1/2 :=
  ⟨(avgConfidence_total []).1 rfl, (avgConfidence_total [50, 61]).2 (by simp)⟩

/-- Claim C10: `getSignalInfo`'s classification is total and three-valued —
every input (including a missing signal) maps to exactly one of 买入 (Buy),
卖出 (Sell) or 中性 (Neutral); the tests run on the lower-cased string, a
string with neither a buy marker (买入/buy) nor a sell marker (卖出/sell) is
Neutral, and a string with both markers is Buy, the buy test coming first. -/
theorem getSignalText_three_valued (os : Option String) (s : String) :
    (getSignalText os = "买入" ∨ getSignalText os = "卖出" ∨
      getSignalText os = "中性") ∧
    getSignalText none = "中性" ∧
    (hasBuyMarker (normalizedSignal (some s)) = false →
      hasSellMarker (normalizedSignal (some s)) = false →
      getSignalText (some s) = "中性") ∧
    (hasBuyMarker (normalizedSignal (some s)) = true →
      hasSellMarker (normalizedSignal (some s)) = true →
      getSignalText (some s) = "买入") := by
  refine ⟨?_, by decide, ?_, ?_⟩
  · unfold getSignalText
    by_cases h1 : hasBuyMarker (normalizedSignal os) <;>
      by_cases h2 : hasSellMarker (normalizedSignal os) <;>
        simp [h1, h2]
  · intro h1 h2
    unfold getSignalText
    simp [h1, h2]
  · intro h1 _
    unfold getSignalText
    simp [h1]

/-- Claim C10, witness: `"hold"` carries neither marker and is Neutral;
`"Strong BUY, weak sell"` carries both markers (case-insensitively) and is
classified Buy. -/
theorem getSignalText_three_valued_example :
    getSignalText (some "hold") = "中性" ∧
    getSignalText (some "Strong BUY, weak sell") = "买入" :=
  ⟨(getSignalText_three_valued (some "hold") "hold").2.2.1
      (by decide) (by decide),
   (getSignalText_three_valued (some "Strong BUY, weak sell")
      "Strong BUY, weak sell").2.2.2 (by decide) (by decide)⟩

end Ritadel
